import Mathlib

/-!
Shallow embedding of the Task State Synchronization & Reorder Engine of
`todo-gopher-delight` (src/src/components/DraggableTodoItem.tsx: the
`DraggableTodoItem` component and the `Index` page component that owns the
todo list state).

The embedded operations are the store-mutating handlers of the `Index`
component — `createTodo`, `toggleTodo`, `deleteTodo`, `editTodo`,
`handleDragEnd` — and the inline-edit commit handler `handleSaveEdit` of
`DraggableTodoItem`.  Each async handler performs its `fetch` first and calls
`setTodos` only after the response has arrived, so an operation is modelled as
a function of its inputs, the current store, and the gateway response
(`ok : Bool`, standing for `response.ok`; a network exception takes the same
`catch` path as a non-ok response and is therefore merged into `ok = false`).
The model records, for one invocation:
  * `pendingStore` — the store contents between issuing the fetch and
    receiving the response (none of the handlers calls `setTodos` before
    awaiting, so this is always the input store);
  * `finalStore` — the store after the handler finished;
  * `calls` — the gateway requests issued;
  * `toasts` — the toast notifications fired.
-/

namespace TodoGopher

/-- The `Todo` interface: `{ id: string; body: string; completed: boolean }`. -/
structure Todo where
  id : String
  body : String
  completed : Bool
deriving Repr, DecidableEq

/-- One HTTP request issued to the backend (`API_BASE`), by method and
payload: `post` = POST /todos (create, with the JSON body text),
`patch` = PATCH /todos/:id (mark completed), `put` = PUT /todos/:id
(edit, with the new body text), `del` = DELETE /todos/:id. -/
inductive GatewayCall where
  | post : String → GatewayCall
  | patch : String → GatewayCall
  | put : String → String → GatewayCall
  | del : String → GatewayCall
deriving Repr, DecidableEq

/-- A toast notification as fired through `useToast`: title, description and
whether `variant: "destructive"` was set. -/
structure Toast where
  title : String
  description : String
  destructive : Bool
deriving Repr, DecidableEq

/-- Success toasts in the source all have title `"Success"` and no variant. -/
def successToast (description : String) : Toast :=
  { title := "Success", description := description, destructive := false }

/-- Error toasts in the source all have title `"Error"` and
`variant: "destructive"`. -/
def errorToast (description : String) : Toast :=
  { title := "Error", description := description, destructive := true }

/-- JavaScript `String.prototype.trim` (as applied by `createTodo` and
`handleSaveEdit`): removes leading and trailing whitespace.  Modelled over
the ASCII whitespace repertoire (`Char.isWhitespace`: space, tab, CR, LF) as
a structurally recursive function on the character list, so that it is
kernel-computable. -/
def jsTrim (s : String) : String :=
  { data :=
      ((s.data.dropWhile Char.isWhitespace).reverse.dropWhile
        Char.isWhitespace).reverse }

/-- The observable effect of one handler invocation (see module docstring). -/
structure MutationOutcome where
  pendingStore : List Todo
  finalStore : List Todo
  calls : List GatewayCall
  toasts : List Toast
deriving Repr, DecidableEq

/-- Outcome of a handler that returned before doing anything observable. -/
def noopOutcome (todos : List Todo) : MutationOutcome :=
  { pendingStore := todos, finalStore := todos, calls := [], toasts := [] }

/-- `createTodo` (src lines 265–303): `if (!newTodo.trim()) return;` —
a body that is empty after trimming aborts before any fetch.  Otherwise a
POST with the trimmed body is sent; only on a successful response is the
server-returned todo prepended (`setTodos(prev => [createdTodo, ...prev])`)
and a success toast fired; on failure the store is untouched and one error
toast is fired.  `created` stands for the todo in the response JSON. -/
def createTodo (todos : List Todo) (newTodo : String) (ok : Bool)
    (created : Todo) : MutationOutcome :=
  if jsTrim newTodo = "" then noopOutcome todos
  else
    { pendingStore := todos
      finalStore := if ok then created :: todos else todos
      calls := [GatewayCall.post (jsTrim newTodo)]
      toasts :=
        if ok then [successToast "Todo created successfully!"]
        else [errorToast "Failed to create todo"] }

/-- `toggleTodo` (src lines 306–335): `if (completed) return;` — the guard
uses the `completed` flag passed by the caller (`DraggableTodoItem` wires
`onToggle(todo.id, todo.completed)`).  Otherwise a PATCH is sent; only on a
successful response does `setTodos` map `completed: true` onto the entry
with the matching id; on failure the store is untouched and one error toast
("Failed to update todo") is fired.  No `setTodos` happens before the
response, so `pendingStore` is the input store. -/
def toggleTodo (todos : List Todo) (id : String) (completed : Bool)
    (ok : Bool) : MutationOutcome :=
  if completed then noopOutcome todos
  else
    { pendingStore := todos
      finalStore :=
        if ok then
          todos.map (fun todo =>
            if todo.id = id then { todo with completed := true } else todo)
        else todos
      calls := [GatewayCall.patch id]
      toasts :=
        if ok then [successToast "Todo marked as completed!"]
        else [errorToast "Failed to update todo"] }

/-- `deleteTodo` (src lines 338–361): a DELETE is sent unconditionally; only
on a successful response does `setTodos` filter out the entry with the
matching id; on failure the store is untouched and one error toast fired. -/
def deleteTodo (todos : List Todo) (id : String) (ok : Bool) :
    MutationOutcome :=
  { pendingStore := todos
    finalStore := if ok then todos.filter (fun todo => todo.id ≠ id) else todos
    calls := [GatewayCall.del id]
    toasts :=
      if ok then [successToast "Todo deleted successfully!"]
      else [errorToast "Failed to delete todo"] }

/-- `editTodo` (src lines 363–394): a PUT with `{ body: newBody }` is sent
unconditionally (no validation of `newBody` whatsoever); only on a
successful response does `setTodos` map `body: newBody` (verbatim) onto the
entry with the matching id; on failure the store is untouched and one error
toast ("Failed to update todo") is fired. -/
def editTodo (todos : List Todo) (id : String) (newBody : String)
    (ok : Bool) : MutationOutcome :=
  { pendingStore := todos
    finalStore :=
      if ok then
        todos.map (fun todo =>
          if todo.id = id then { todo with body := newBody } else todo)
      else todos
    calls := [GatewayCall.put id newBody]
    toasts :=
      if ok then [successToast "Todo updated successfully!"]
      else [errorToast "Failed to update todo"] }

/-- JavaScript `Array.prototype.findIndex`: index of the first element
satisfying the predicate, `-1` if there is none. -/
def findIndexJS (p : Todo → Bool) (xs : List Todo) : Int :=
  match xs.findIdx? p with
  | some i => (i : Int)
  | none => -1

/-- `arrayMove` from `@dnd-kit/sortable`, as invoked by `handleDragEnd`:

    const newArray = array.slice();
    newArray.splice(to < 0 ? newArray.length + to : to, 0,
                    newArray.splice(from, 1)[0]);

with JavaScript `splice` semantics.  The first argument of the outer splice
is evaluated before the inner splice removes anything, so both index
computations use the pre-removal length `n`; the outer splice then clamps
its start against the shorter array, which the `take`/`drop` form below does
automatically.  `handleDragEnd` only ever passes `findIndex` results, i.e.
indices in `{-1} ∪ [0, n)`; on that domain this model matches `splice`
exactly, except that for an empty list (unreachable: no drag events exist
for an empty rendered list) JS would insert `undefined` where this model
inserts nothing. -/
def arrayMove (array : List Todo) (fromIdx toIdx : Int) : List Todo :=
  let n := array.length
  let insertPos : Nat :=
    if toIdx < 0 then ((n : Int) + toIdx).toNat else min toIdx.toNat n
  let removePos : Nat :=
    if fromIdx < 0 then ((n : Int) + fromIdx).toNat else min fromIdx.toNat n
  let removed := array[removePos]?
  let rest := array.take removePos ++ array.drop (removePos + 1)
  rest.take insertPos ++ removed.toList ++ rest.drop insertPos

/-- `handleDragEnd` (src lines 396–407): if a drop target exists
(`over` non-null) and `active.id !== over.id`, replace the store by
`arrayMove(items, oldIndex, newIndex)` where the indices are `findIndex`
results for the two ids; otherwise do nothing.  Purely local: the handler
contains no fetch, so `calls = []` always. -/
def handleDragEnd (todos : List Todo) (activeId : String)
    (over : Option String) : MutationOutcome :=
  match over with
  | none => noopOutcome todos
  | some overId =>
    if activeId ≠ overId then
      let oldIndex := findIndexJS (fun item => item.id = activeId) todos
      let newIndex := findIndexJS (fun item => item.id = overId) todos
      { pendingStore := todos
        finalStore := arrayMove todos oldIndex newIndex
        calls := []
        toasts := [] }
    else noopOutcome todos

/-- Result of the inline-edit commit handler: whether `onEdit` was invoked
(and with which arguments), and the component state it leaves behind. -/
structure SaveEditResult where
  editCall : Option (String × String)
  isEditing : Bool
  editValue : String
deriving Repr, DecidableEq

/-- `handleSaveEdit` (src lines 60–66) of `DraggableTodoItem`:

    if (editValue.trim() && editValue.trim() !== todo.body) {
      onEdit(todo.id, editValue.trim());
    }
    setIsEditing(false);
    setEditValue(todo.body);

`onEdit` is wired to `editTodo`.  A trimmed-empty string is falsy, so the
edit is invoked exactly when the trimmed draft is non-empty and differs from
the current body; in every case the session ends (`isEditing := false`). -/
def handleSaveEdit (todo : Todo) (editValue : String) : SaveEditResult :=
  if jsTrim editValue ≠ "" ∧ jsTrim editValue ≠ todo.body then
    { editCall := some (todo.id, jsTrim editValue), isEditing := false
      editValue := todo.body }
  else
    { editCall := none, isEditing := false, editValue := todo.body }

/-- `before` demotes into `after` when some task stored completed in
`before` shows up with the same id but `completed = false` in `after`. -/
def demotesCompleted (before after : List Todo) : Prop :=
  ∃ t ∈ before, ∃ u ∈ after, u.id = t.id ∧ t.completed = true ∧
    u.completed = false

end TodoGopher

namespace TodoGopher

/-! ### Claim theorems -/

/-- **C7.** `requestCreate` with a body that is empty after trimming (for
example `"   "`) performs no Task Store mutation and makes no gateway call:
`createTodo` returns at the `!newTodo.trim()` guard, before any fetch. -/
theorem C7_create_rejects_blank (todos : List Todo) (newTodo : String)
    (ok : Bool) (created : Todo) (h : jsTrim newTodo = "") :
    createTodo todos newTodo ok created = noopOutcome todos := by
  simp [createTodo, h]

/-- Witness for C7 at the spec's concrete input `"   "`. -/
theorem C7_create_rejects_blank_witness :
    createTodo [] "   " false { id := "x", body := "x", completed := false }
      = noopOutcome [] :=
  C7_create_rejects_blank [] "   " false
    { id := "x", body := "x", completed := false } (by decide)

/-- **C8.** The inline-edit commit path trims the draft and invokes the edit
operation exactly when the trimmed draft is non-empty and differs from the
task's current body; otherwise it discards the draft (no `onEdit`, hence no
gateway call and no store mutation); in every case the edit session ends
(`isEditing` becomes false). -/
theorem C8_save_edit_commit (todo : Todo) (draft : String) :
    (handleSaveEdit todo draft).isEditing = false ∧
    (jsTrim draft ≠ "" ∧ jsTrim draft ≠ todo.body →
      (handleSaveEdit todo draft).editCall = some (todo.id, jsTrim draft)) ∧
    (jsTrim draft = "" ∨ jsTrim draft = todo.body →
      (handleSaveEdit todo draft).editCall = none) := by
  refine ⟨?_, ?_, ?_⟩
  · by_cases h : jsTrim draft ≠ "" ∧ jsTrim draft ≠ todo.body <;>
      simp [handleSaveEdit, h]
  · intro h
    simp [handleSaveEdit, h]
  · intro h
    have h' : ¬ (jsTrim draft ≠ "" ∧ jsTrim draft ≠ todo.body) := by
      rcases h with h | h <;> simp [h]
    simp [handleSaveEdit, h']

/-- Witness for C8: a dirty draft `" new "` on body `"old"` commits the
trimmed text; the draft `" old "` (trimming to the current body) is
discarded. -/
theorem C8_save_edit_commit_witness :
    (handleSaveEdit { id := "a", body := "old", completed := false }
        " new ").editCall = some ("a", "new") ∧
    (handleSaveEdit { id := "a", body := "old", completed := false }
        " old ").editCall = none := by
  constructor
  · exact (C8_save_edit_commit
      { id := "a", body := "old", completed := false } " new ").2.1
      (by constructor <;> decide)
  · exact (C8_save_edit_commit
      { id := "a", body := "old", completed := false } " old ").2.2
      (Or.inr (by decide))

/-- **C10.** `editTodo` performs no input validation: for any `newBody`
(including one empty after trimming or equal to the current body) the PUT is
issued, and on success `newBody` is stored verbatim (untrimmed) for the
matching id — so a direct call can leave a stored task with an empty body.
The non-empty-after-trim rule lives only in the inline-edit commit path
(`handleSaveEdit` does not invoke the edit when the trimmed draft is
empty). -/
theorem C10_edit_no_validation (todos : List Todo) (id newBody : String)
    (ok : Bool) (t : Todo) (todo : Todo) (draft : String)
    (ht : t ∈ todos) (hid : t.id = id) (hdraft : jsTrim draft = "") :
    (editTodo todos id newBody ok).calls = [GatewayCall.put id newBody] ∧
    { t with body := newBody } ∈ (editTodo todos id newBody true).finalStore ∧
    (handleSaveEdit todo draft).editCall = none := by
  refine ⟨rfl, ?_, ?_⟩
  · simp only [editTodo]
    refine List.mem_map.2 ⟨t, ht, ?_⟩
    simp [hid]
  · simp [handleSaveEdit, hdraft]

/-! ### Helper lemmas on list surgery and `arrayMove` -/

theorem take_append_getElem_drop {α : Type} (l : List α) (i : Nat)
    (h : i < l.length) :
    l.take i ++ l[i] :: l.drop (i + 1) = l := by
  rw [List.getElem_cons_drop l i h, List.take_append_drop]

/-- On in-range indices, `arrayMove` removes the element at `i` and reinserts
it at position `j` of the shortened list. -/
theorem arrayMove_valid (l : List Todo) (i j : Nat) (hi : i < l.length)
    (hj : j < l.length) :
    arrayMove l (i : Int) (j : Int)
      = (l.eraseIdx i).take j ++ l[i] :: (l.eraseIdx i).drop j := by
  have hj0 : ¬ ((j : Int) < 0) := by omega
  have hi0 : ¬ ((i : Int) < 0) := by omega
  simp only [arrayMove, hj0, hi0, if_false, Int.toNat_ofNat,
    Nat.min_eq_left hi.le, Nat.min_eq_left hj.le,
    List.getElem?_eq_getElem hi, Option.toList_some,
    ← List.eraseIdx_eq_take_drop_succ]
  simp [List.append_assoc]

theorem arrayMove_perm (l : List Todo) (i j : Nat) (hi : i < l.length)
    (hj : j < l.length) : List.Perm (arrayMove l (i : Int) (j : Int)) l := by
  rw [arrayMove_valid l i j hi hj]
  have h1 : List.Perm
      ((l.eraseIdx i).take j ++ l[i] :: (l.eraseIdx i).drop j)
      (l[i] :: ((l.eraseIdx i).take j ++ (l.eraseIdx i).drop j)) :=
    List.perm_middle
  rw [List.take_append_drop] at h1
  refine h1.trans ?_
  conv_rhs => rw [← take_append_getElem_drop l i hi]
  rw [List.eraseIdx_eq_take_drop_succ]
  exact List.perm_middle.symm

theorem length_arrayMove (l : List Todo) (i j : Nat) (hi : i < l.length)
    (hj : j < l.length) :
    (arrayMove l (i : Int) (j : Int)).length = l.length :=
  (arrayMove_perm l i j hi hj).length_eq

theorem eraseIdx_length_take (l : List Todo) (i : Nat) (hi : i < l.length)
    (j : Nat) (hj : j < l.length) :
    ((l.eraseIdx i).take j).length = j := by
  rw [List.length_take, List.length_eraseIdx_of_lt hi]
  omega

/-- The moved element ends up exactly at the target index. -/
theorem arrayMove_getElem_target (l : List Todo) (i j : Nat)
    (hi : i < l.length) (hj : j < l.length) :
    (arrayMove l (i : Int) (j : Int))[j]? = some l[i] := by
  rw [arrayMove_valid l i j hi hj]
  have hlen : ((l.eraseIdx i).take j).length = j :=
    eraseIdx_length_take l i hi j hj
  rw [List.getElem?_append_right (le_of_eq hlen), hlen, Nat.sub_self]
  simp

/-- Erasing the moved element from its target slot recovers the sequence
with the source element removed: everything else kept its relative order. -/
theorem arrayMove_eraseIdx_target (l : List Todo) (i j : Nat)
    (hi : i < l.length) (hj : j < l.length) :
    (arrayMove l (i : Int) (j : Int)).eraseIdx j = l.eraseIdx i := by
  rw [arrayMove_valid l i j hi hj, List.eraseIdx_eq_take_drop_succ]
  have hlen : ((l.eraseIdx i).take j).length = j :=
    eraseIdx_length_take l i hi j hj
  have htake : ((l.eraseIdx i).take j ++ l[i] :: (l.eraseIdx i).drop j).take j
      = (l.eraseIdx i).take j := List.take_left' hlen
  have hdrop : ((l.eraseIdx i).take j ++
      l[i] :: (l.eraseIdx i).drop j).drop (j + 1)
      = (l.eraseIdx i).drop j := by
    rw [show (l.eraseIdx i).take j ++ l[i] :: (l.eraseIdx i).drop j
        = ((l.eraseIdx i).take j ++ [l[i]]) ++ (l.eraseIdx i).drop j by simp,
      List.drop_left' (by simp [hlen])]
  rw [htake, hdrop, List.take_append_drop]

/-- Moving the element back from the target index to the source index
restores the original sequence. -/
theorem arrayMove_round_trip (l : List Todo) (i j : Nat) (hi : i < l.length)
    (hj : j < l.length) :
    arrayMove (arrayMove l (i : Int) (j : Int)) (j : Int) (i : Int) = l := by
  have hmlen : (arrayMove l (i : Int) (j : Int)).length = l.length :=
    length_arrayMove l i j hi hj
  have hj2 : j < (arrayMove l (i : Int) (j : Int)).length := by omega
  have hi2 : i < (arrayMove l (i : Int) (j : Int)).length := by omega
  rw [arrayMove_valid _ j i hj2 hi2]
  have hval : (arrayMove l (i : Int) (j : Int))[j] = l[i] := by
    have h1 := arrayMove_getElem_target l i j hi hj
    rw [List.getElem?_eq_getElem hj2] at h1
    exact Option.some.inj h1
  rw [hval, arrayMove_eraseIdx_target l i j hi hj]
  have htake2 : (l.eraseIdx i).take i = l.take i := by
    rw [List.eraseIdx_eq_take_drop_succ]
    exact List.take_left' (by rw [List.length_take]; omega)
  have hdrop2 : (l.eraseIdx i).drop i = l.drop (i + 1) := by
    rw [List.eraseIdx_eq_take_drop_succ]
    exact List.drop_left' (by rw [List.length_take]; omega)
  rw [htake2, hdrop2, take_append_getElem_drop l i hi]

/-- With ids unique, no element of `l.eraseIdx i` carries the id of the
erased element. -/
theorem id_not_in_eraseIdx (l : List Todo) (i : Nat) (hi : i < l.length)
    (hnd : (l.map Todo.id).Nodup) :
    ∀ u ∈ l.eraseIdx i, u.id ≠ l[i].id := by
  intro u hu
  rw [List.eraseIdx_eq_take_drop_succ] at hu
  have hi2 : i < (l.map Todo.id).length := by simpa using hi
  have hx := (take_append_getElem_drop (l.map Todo.id) i hi2).symm
  rw [hx, List.nodup_middle] at hnd
  have hgm : (l.map Todo.id)[i] = l[i].id := by simp
  have hnotin : (l.map Todo.id)[i] ∉
      (l.map Todo.id).take i ++ (l.map Todo.id).drop (i + 1) :=
    (List.nodup_cons.1 hnd).1
  intro heq
  apply hnotin
  rw [hgm, ← heq]
  rcases List.mem_append.1 hu with h | h
  · refine List.mem_append.2 (Or.inl ?_)
    rw [← List.map_take]
    exact List.mem_map_of_mem Todo.id h
  · refine List.mem_append.2 (Or.inr ?_)
    rw [← List.map_drop]
    exact List.mem_map_of_mem Todo.id h

/-- Converse builder for `findIdx?`: exhibit the index and rule out earlier
hits. -/
theorem findIdx?_eq_some_of (p : Todo → Bool) (l : List Todo) (i : Nat)
    (hlt : i < l.length) (hp : p (l.get ⟨i, hlt⟩) = true)
    (hprev : ∀ k (hk : k < l.length), k < i → p (l.get ⟨k, hk⟩) = false) :
    l.findIdx? p = some i := by
  rw [List.findIdx?_eq_some_iff_getElem]
  refine ⟨hlt, ?_, ?_⟩
  · simpa using hp
  · intro k hk
    have := hprev k (Nat.lt_trans hk hlt) hk
    simp only [List.get_eq_getElem] at this
    simp [this]

/-- Before the target position, `arrayMove` shows elements of the shortened
list. -/
theorem arrayMove_getElem_early (l : List Todo) (i j k : Nat)
    (hi : i < l.length) (hj : j < l.length) (hkj : k < j) :
    (arrayMove l (i : Int) (j : Int))[k]? = ((l.eraseIdx i).take j)[k]? := by
  rw [arrayMove_valid l i j hi hj]
  exact List.getElem?_append_left
    (by rw [eraseIdx_length_take l i hi j hj]; exact hkj)

/-- With unique ids, distinct positions carry distinct ids. -/
theorem nodup_map_id_getElem_ne (m : List Todo)
    (hnd : (m.map Todo.id).Nodup) (k i : Nat) (hk : k < m.length)
    (hi : i < m.length) (hne : k ≠ i) : m[k].id ≠ m[i].id := by
  intro h
  apply hne
  have hk2 : k < (m.map Todo.id).length := by simpa using hk
  have hi2 : i < (m.map Todo.id).length := by simpa using hi
  have h2 : (m.map Todo.id)[k] = (m.map Todo.id)[i] := by simpa using h
  exact (@List.Nodup.getElem_inj_iff _ _ hnd k hk2 i hi2).1 h2

/-- **C1 (counterexample).** The claim says `requestToggle` sets the stored
task's `completed` field to `true` while the gateway call is still
outstanding.  It does not: `toggleTodo` calls `setTodos` only after a
successful response, so with task `"a"` uncompleted the store still carries
`completed = false` during the outstanding PATCH. -/
theorem C1_counterexample :
    ((toggleTodo [{ id := "a", body := "buy milk", completed := false }] "a"
        false true).pendingStore.map Todo.completed) = [false] ∧
    ¬ ((toggleTodo [{ id := "a", body := "buy milk", completed := false }] "a"
        false true).pendingStore.map Todo.completed) = [true] := by
  exact ⟨rfl, by decide⟩

/-- **C1 (amended).** `requestToggle` on an uncompleted task applies no
optimistic update: while the gateway call is outstanding the store is
unchanged (`completed` still `false`); if the call fails, the store is left
untouched (so `completed` remains `false`) and an error is reported; only if
it succeeds is `completed` set to `true` for that id.  The `completed`
argument is the flag the caller passes (`onToggle(todo.id,
todo.completed)`), hence `t.completed` here. -/
theorem C1_toggle_pessimistic_update (todos : List Todo) (ok : Bool)
    (t : Todo) (ht : t ∈ todos) (hc : t.completed = false) :
    (toggleTodo todos t.id t.completed ok).pendingStore = todos ∧
    (toggleTodo todos t.id t.completed false).finalStore = todos ∧
    (toggleTodo todos t.id t.completed false).toasts
      = [errorToast "Failed to update todo"] ∧
    { t with completed := true } ∈
      (toggleTodo todos t.id t.completed true).finalStore ∧
    (∀ u ∈ (toggleTodo todos t.id t.completed true).finalStore,
      u.id = t.id → u.completed = true) := by
  rw [hc]
  refine ⟨by simp [toggleTodo], by simp [toggleTodo], by simp [toggleTodo],
    ?_, ?_⟩
  · simp only [toggleTodo, Bool.false_eq_true, if_false, if_true]
    exact List.mem_map.2 ⟨t, ht, by simp⟩
  · intro u hu hid
    simp only [toggleTodo, Bool.false_eq_true, if_false, if_true] at hu
    rcases List.mem_map.1 hu with ⟨t₀, _, rfl⟩
    by_cases h : t₀.id = t.id
    · simp [h]
    · simp only [h, if_false] at hid ⊢

/-- Witness for C1 (amended) on a one-task store. -/
theorem C1_toggle_pessimistic_update_witness :
    (toggleTodo [{ id := "a", body := "buy milk", completed := false }] "a"
        false false).finalStore
      = [{ id := "a", body := "buy milk", completed := false }] ∧
    { id := "a", body := "buy milk", completed := true } ∈
      (toggleTodo [{ id := "a", body := "buy milk", completed := false }] "a"
        false true).finalStore :=
  ⟨(C1_toggle_pessimistic_update
      [{ id := "a", body := "buy milk", completed := false }] false
      { id := "a", body := "buy milk", completed := false }
      (List.mem_singleton.2 rfl) rfl).2.1,
   (C1_toggle_pessimistic_update
      [{ id := "a", body := "buy milk", completed := false }] true
      { id := "a", body := "buy milk", completed := false }
      (List.mem_singleton.2 rfl) rfl).2.2.2.1⟩

/-- **C2 (counterexample).** The claim says a reorder whose `sourceId` is
absent from the sequence is a no-op.  It is not: `findIndex` yields `-1`,
and `arrayMove(items, -1, 0)` moves the *last* element to the front — on
`[a, b, c]` with absent source `"z"` and target `"a"` the store becomes
`[c, a, b]`. -/
theorem C2_counterexample :
    (handleDragEnd
        [{ id := "a", body := "a", completed := false },
         { id := "b", body := "b", completed := false },
         { id := "c", body := "c", completed := false }] "z"
        (some "a")).finalStore
      = [{ id := "c", body := "c", completed := false },
         { id := "a", body := "a", completed := false },
         { id := "b", body := "b", completed := false }] ∧
    ¬ (handleDragEnd
        [{ id := "a", body := "a", completed := false },
         { id := "b", body := "b", completed := false },
         { id := "c", body := "c", completed := false }] "z"
        (some "a")).finalStore
      = [{ id := "a", body := "a", completed := false },
         { id := "b", body := "b", completed := false },
         { id := "c", body := "c", completed := false }] := by
  exact ⟨by decide, by decide⟩

/-- **C2 (amended).** `requestReorder` leaves the Task Store sequence
unchanged whenever `sourceId` equals `targetId` or there is no drop target,
and never issues a gateway call; an id absent from the sequence is *not*
detected (no `NotFound` no-op): `findIndex` returns `-1` and `arrayMove` is
applied anyway, which can change the sequence (see the counterexample). -/
theorem C2_reorder_noop_cases (todos : List Todo) (sourceId : String)
    (over : Option String) :
    handleDragEnd todos sourceId (some sourceId) = noopOutcome todos ∧
    handleDragEnd todos sourceId none = noopOutcome todos ∧
    (handleDragEnd todos sourceId over).calls = [] := by
  refine ⟨by simp [handleDragEnd], rfl, ?_⟩
  cases over with
  | none => rfl
  | some overId =>
    by_cases h : sourceId ≠ overId <;> simp [handleDragEnd, h, noopOutcome]

/-- **C5 (counterexample).** The claim says the error notification of a
failed edit is tagged with the edit mutation kind and the task's id.  It is
not: the toast is the constant `("Error", "Failed to update todo")`,
identical for an edit of task `"a"`, an edit of task `"b"`, and even a
failed *toggle* — it carries neither the mutation kind nor the id. -/
theorem C5_counterexample :
    (editTodo [{ id := "a", body := "buy milk", completed := false }] "a"
        "buy bread" false).toasts
      = (editTodo [{ id := "b", body := "pay rent", completed := false }] "b"
          "pay rent now" false).toasts ∧
    (editTodo [{ id := "a", body := "buy milk", completed := false }] "a"
        "buy bread" false).toasts
      = (toggleTodo [{ id := "a", body := "buy milk", completed := false }]
          "a" false false).toasts := by
  exact ⟨rfl, rfl⟩

/-- **C5 (amended).** If the gateway call of `requestEdit(id, newBody)`
fails, the store is exactly its pre-edit value (in particular the task's
`body` is unchanged — an edit of "buy milk" to "buy bread" whose call fails
leaves `body` exactly "buy milk"), and exactly one error notification is
fired; that notification is the fixed toast `("Error", "Failed to update
todo")`, tagged with neither the mutation kind nor the task id. -/
theorem C5_edit_failure_rollback (todos : List Todo) (id newBody : String) :
    (editTodo todos id newBody false).finalStore = todos ∧
    (editTodo todos id newBody false).toasts
      = [errorToast "Failed to update todo"] := by
  exact ⟨rfl, rfl⟩

/-- Witness for C10: editing task `"a"` to the empty string issues
`PUT ("a", "")` and leaves the stored task with body `""`. -/
theorem C10_edit_no_validation_witness :
    (editTodo [{ id := "a", body := "buy milk", completed := false }] "a" ""
        true).calls = [GatewayCall.put "a" ""] ∧
    { id := "a", body := "", completed := false } ∈
      (editTodo [{ id := "a", body := "buy milk", completed := false }] "a" ""
        true).finalStore ∧
    (handleSaveEdit { id := "a", body := "buy milk", completed := false }
        " ").editCall = none :=
  C10_edit_no_validation
    [{ id := "a", body := "buy milk", completed := false }] "a" "" true
    { id := "a", body := "buy milk", completed := false }
    { id := "a", body := "buy milk", completed := false } " "
    (List.mem_singleton.2 rfl) rfl (by decide)

/-! ### Helper lemmas for the monotonicity and frame claims -/

theorem not_demotes_of_subset (todos after : List Todo)
    (hnd : (todos.map Todo.id).Nodup) (hsub : ∀ u ∈ after, u ∈ todos) :
    ¬ demotesCompleted todos after := by
  rintro ⟨t, ht, u, hu, hid, hct, hcu⟩
  have heq : u = t := List.inj_on_of_nodup_map hnd (hsub u hu) ht hid
  rw [heq, hct] at hcu
  simp at hcu

theorem not_demotes_map_promote (todos : List Todo) (f : Todo → Todo)
    (hnd : (todos.map Todo.id).Nodup)
    (hfid : ∀ t, (f t).id = t.id)
    (hfc : ∀ t, t.completed = true → (f t).completed = true) :
    ¬ demotesCompleted todos (todos.map f) := by
  rintro ⟨t, ht, u, hu, hid, hct, hcu⟩
  obtain ⟨t0, ht0, rfl⟩ := List.mem_map.1 hu
  have hid2 : t0.id = t.id := (hfid t0).symm.trans hid
  have heq : t0 = t := List.inj_on_of_nodup_map hnd ht0 ht hid2
  subst heq
  rw [hfc t0 hct] at hcu
  simp at hcu

theorem not_demotes_cons_fresh (todos : List Todo) (created : Todo)
    (hnd : (todos.map Todo.id).Nodup)
    (hfresh : created.id ∉ todos.map Todo.id) :
    ¬ demotesCompleted todos (created :: todos) := by
  rintro ⟨t, ht, u, hu, hid, hct, hcu⟩
  rcases List.mem_cons.1 hu with rfl | hu2
  · apply hfresh
    rw [hid]
    exact List.mem_map_of_mem Todo.id ht
  · have heq : u = t := List.inj_on_of_nodup_map hnd hu2 ht hid
    rw [heq, hct] at hcu
    simp at hcu

theorem mem_of_mem_arrayMove (l : List Todo) (a b : Int) (u : Todo)
    (hu : u ∈ arrayMove l a b) : u ∈ l := by
  simp only [arrayMove, List.mem_append] at hu
  rcases hu with (h | h) | h
  · have h2 := List.mem_of_mem_take h
    rcases List.mem_append.1 h2 with h3 | h3
    · exact List.mem_of_mem_take h3
    · exact List.mem_of_mem_drop h3
  · exact List.getElem?_mem (Option.mem_toList.1 h)
  · have h2 := List.mem_of_mem_drop h
    rcases List.mem_append.1 h2 with h3 | h3
    · exact List.mem_of_mem_take h3
    · exact List.mem_of_mem_drop h3

theorem filter_map_comm_of_pres (f : Todo → Todo) (q : Todo → Bool)
    (hf : ∀ t, q (f t) = q t) (l : List Todo) :
    (l.map f).filter q = (l.filter q).map f := by
  induction l with
  | nil => rfl
  | cons a l ih =>
    simp only [List.map_cons, List.filter_cons, hf a]
    by_cases h : q a
    · simp [h, ih]
    · simp [h, ih]

theorem filter_map_fix (f : Todo → Todo) (q : Todo → Bool)
    (hfix : ∀ t, q t = true → f t = t) (l : List Todo) :
    (l.filter q).map f = l.filter q := by
  induction l with
  | nil => rfl
  | cons a l ih =>
    by_cases h : q a
    · simp [List.filter_cons, h, ih, hfix a h]
    · simp [List.filter_cons, h, ih]

/-- A successful edit rewrites only the entry with the matching id: the
other entries (and their relative order) are untouched. -/
theorem filter_ne_edit (todos : List Todo) (A newBody : String) :
    (todos.map (fun t =>
        if t.id = A then { t with body := newBody } else t)).filter
        (fun t => t.id ≠ A)
      = todos.filter (fun t => t.id ≠ A) := by
  refine (filter_map_comm_of_pres _ _ ?_ todos).trans
    (filter_map_fix _ _ ?_ todos)
  · intro t
    by_cases h : t.id = A <;> simp [h]
  · intro t ht
    have h1 : t.id ≠ A := of_decide_eq_true ht
    simp [h1]

theorem filter_ne_toggle (todos : List Todo) (A : String) :
    (todos.map (fun t =>
        if t.id = A then { t with completed := true } else t)).filter
        (fun t => t.id ≠ A)
      = todos.filter (fun t => t.id ≠ A) := by
  refine (filter_map_comm_of_pres _ _ ?_ todos).trans
    (filter_map_fix _ _ ?_ todos)
  · intro t
    by_cases h : t.id = A <;> simp [h]
  · intro t ht
    have h1 : t.id ≠ A := of_decide_eq_true ht
    simp [h1]

theorem filter_ne_filter_ne (todos : List Todo) (A : String) :
    (todos.filter (fun t => t.id ≠ A)).filter (fun t => t.id ≠ A)
      = todos.filter (fun t => t.id ≠ A) := by
  rw [List.filter_filter]
  apply List.filter_congr
  intro t _
  by_cases h : t.id = A <;> simp [h]

theorem filter_eq_of_filter_ne (todos : List Todo) (A B : String)
    (hAB : A ≠ B) :
    (todos.filter (fun t => t.id ≠ A)).filter (fun t => t.id = B)
      = todos.filter (fun t => t.id = B) := by
  rw [List.filter_filter]
  apply List.filter_congr
  intro t _
  by_cases h : t.id = B
  · simp [h, Ne.symm hAB]
  · simp [h]

theorem edit_frame_ne (todos : List Todo) (A newBody : String) (ok : Bool) :
    (editTodo todos A newBody ok).finalStore.filter (fun t => t.id ≠ A)
      = todos.filter (fun t => t.id ≠ A) := by
  cases ok with
  | false => rfl
  | true => exact filter_ne_edit todos A newBody

theorem toggle_frame_ne (todos : List Todo) (A : String) (ok : Bool) :
    (toggleTodo todos A false ok).finalStore.filter (fun t => t.id ≠ A)
      = todos.filter (fun t => t.id ≠ A) := by
  cases ok with
  | false => rfl
  | true => exact filter_ne_toggle todos A

theorem delete_frame_ne (todos : List Todo) (A : String) (ok : Bool) :
    (deleteTodo todos A ok).finalStore.filter (fun t => t.id ≠ A)
      = todos.filter (fun t => t.id ≠ A) := by
  cases ok with
  | false => rfl
  | true => exact filter_ne_filter_ne todos A

theorem edit_delete_comm (todos : List Todo) (A B newBody : String)
    (okA okB : Bool) :
    (editTodo (deleteTodo todos A okA).finalStore B newBody okB).finalStore
      = (deleteTodo (editTodo todos B newBody okB).finalStore A
          okA).finalStore := by
  cases okA <;> cases okB
  · rfl
  · rfl
  · rfl
  · exact (filter_map_comm_of_pres _ _
      (fun t => by by_cases h : t.id = B <;> simp [h]) todos).symm

theorem edit_after_delete_keeps_B (todos : List Todo) (A B newBody : String)
    (okA okB : Bool) (hAB : A ≠ B) :
    (editTodo (deleteTodo todos A okA).finalStore B newBody
        okB).finalStore.filter (fun t => t.id = B)
      = (editTodo todos B newBody okB).finalStore.filter
          (fun t => t.id = B) := by
  cases okA with
  | false => rfl
  | true =>
    cases okB with
    | false => exact filter_eq_of_filter_ne todos A B hAB
    | true =>
      have h1 := filter_map_comm_of_pres
        (fun t => if t.id = B then { t with body := newBody } else t)
        (fun t => t.id = B)
        (fun t => by by_cases h : t.id = B <;> simp [h])
        (todos.filter (fun t => t.id ≠ A))
      have h2 := filter_map_comm_of_pres
        (fun t => if t.id = B then { t with body := newBody } else t)
        (fun t => t.id = B)
        (fun t => by by_cases h : t.id = B <;> simp [h]) todos
      refine h1.trans ?_
      rw [filter_eq_of_filter_ne todos A B hAB]
      exact h2.symm

theorem edit_after_delete_keeps_A (todos : List Todo) (A B newBody : String)
    (okA okB : Bool) (hAB : A ≠ B) :
    (editTodo (deleteTodo todos A okA).finalStore B newBody
        okB).finalStore.filter (fun t => t.id = A)
      = (deleteTodo todos A okA).finalStore.filter (fun t => t.id = A) := by
  cases okB with
  | false => rfl
  | true =>
    refine (filter_map_comm_of_pres _ _ ?_ _).trans
      (filter_map_fix _ _ ?_ _)
    · intro t
      by_cases h : t.id = B <;> simp [h]
    · intro t ht
      have h1 : t.id = A := of_decide_eq_true ht
      have h2 : ¬ t.id = B := by
        rw [h1]
        exact hAB
      simp [h2]

/-- **C3.** For distinct ids both present (at indices `i` and `j`),
`requestReorder` removes the task at the source index and reinserts it at
the target index: the result is a permutation of the original sequence (same
ids), the moved task sits exactly at the target position, erasing it there
recovers the original sequence minus the source entry (so every other task
keeps its original relative order), and no gateway call is made. -/
theorem C3_reorder_stable_move (todos : List Todo)
    (sourceId targetId : String) (i j : Nat) (hne : sourceId ≠ targetId)
    (hi : todos.findIdx? (fun t => t.id = sourceId) = some i)
    (hj : todos.findIdx? (fun t => t.id = targetId) = some j) :
    (handleDragEnd todos sourceId (some targetId)).calls = [] ∧
    List.Perm (handleDragEnd todos sourceId (some targetId)).finalStore
      todos ∧
    ∃ h : i < todos.length,
      ((handleDragEnd todos sourceId (some targetId)).finalStore)[j]?
          = some (todos.get ⟨i, h⟩) ∧
      ((handleDragEnd todos sourceId (some targetId)).finalStore).eraseIdx j
          = todos.eraseIdx i := by
  obtain ⟨hilt, hpi, hiprev⟩ := List.findIdx?_eq_some_iff_getElem.1 hi
  obtain ⟨hjlt, hpj, hjprev⟩ := List.findIdx?_eq_some_iff_getElem.1 hj
  have hfs : (handleDragEnd todos sourceId (some targetId)).finalStore
      = arrayMove todos (i : Int) (j : Int) := by
    simp [handleDragEnd, hne, findIndexJS, hi, hj]
  refine ⟨by simp [handleDragEnd, hne], ?_, hilt, ?_, ?_⟩
  · rw [hfs]
    exact arrayMove_perm todos i j hilt hjlt
  · rw [hfs, List.get_eq_getElem]
    exact arrayMove_getElem_target todos i j hilt hjlt
  · rw [hfs]
    exact arrayMove_eraseIdx_target todos i j hilt hjlt

/-- Witness for C3 at the spec's example: moving the task at index 2 of a
5-element sequence to index 0 yields the same ids with the moved id first
and the rest in their original relative order, with no gateway call. -/
theorem C3_reorder_stable_move_witness :
    (handleDragEnd
        [{ id := "a", body := "a", completed := false },
         { id := "b", body := "b", completed := false },
         { id := "c", body := "c", completed := false },
         { id := "d", body := "d", completed := false },
         { id := "e", body := "e", completed := false }] "c"
        (some "a")).calls = [] ∧
    List.Perm
      (handleDragEnd
        [{ id := "a", body := "a", completed := false },
         { id := "b", body := "b", completed := false },
         { id := "c", body := "c", completed := false },
         { id := "d", body := "d", completed := false },
         { id := "e", body := "e", completed := false }] "c"
        (some "a")).finalStore
      [{ id := "a", body := "a", completed := false },
       { id := "b", body := "b", completed := false },
       { id := "c", body := "c", completed := false },
       { id := "d", body := "d", completed := false },
       { id := "e", body := "e", completed := false }] :=
  ⟨(C3_reorder_stable_move
      [{ id := "a", body := "a", completed := false },
       { id := "b", body := "b", completed := false },
       { id := "c", body := "c", completed := false },
       { id := "d", body := "d", completed := false },
       { id := "e", body := "e", completed := false }] "c" "a" 2 0
      (by decide) (by decide) (by decide)).1,
   (C3_reorder_stable_move
      [{ id := "a", body := "a", completed := false },
       { id := "b", body := "b", completed := false },
       { id := "c", body := "c", completed := false },
       { id := "d", body := "d", completed := false },
       { id := "e", body := "e", completed := false }] "c" "a" 2 0
      (by decide) (by decide) (by decide)).2.1⟩

/-- **C9.** Reorder round trip: with unique ids, moving task `X` (at index
`i`) to the position of task `Y` (at index `j`) and then moving `X` back to
the position of the task `Z` that now occupies `X`'s original index (its
original neighbor that shifted into index `i`) restores the original
sequence exactly. -/
theorem C9_reorder_round_trip (todos : List Todo) (X Y Z : String)
    (i j : Nat) (tz : Todo)
    (hnd : (todos.map Todo.id).Nodup) (hXY : X ≠ Y)
    (hi : todos.findIdx? (fun t => t.id = X) = some i)
    (hj : todos.findIdx? (fun t => t.id = Y) = some j)
    (hz : ((handleDragEnd todos X (some Y)).finalStore)[i]? = some tz)
    (hzid : tz.id = Z) :
    (handleDragEnd (handleDragEnd todos X (some Y)).finalStore X
        (some Z)).finalStore = todos := by
  obtain ⟨hilt, hpi, hiprev⟩ := List.findIdx?_eq_some_iff_getElem.1 hi
  obtain ⟨hjlt, hpj, hjprev⟩ := List.findIdx?_eq_some_iff_getElem.1 hj
  have hpi2 : todos[i].id = X := by simpa using hpi
  have hpj2 : todos[j].id = Y := by simpa using hpj
  have hij : i ≠ j := by
    intro h
    subst h
    exact hXY (hpi2.symm.trans hpj2)
  have hfs : (handleDragEnd todos X (some Y)).finalStore
      = arrayMove todos (i : Int) (j : Int) := by
    simp [handleDragEnd, hXY, findIndexJS, hi, hj]
  rw [hfs] at hz ⊢
  have hmlen : (arrayMove todos (i : Int) (j : Int)).length = todos.length :=
    length_arrayMove todos i j hilt hjlt
  have hj2 : j < (arrayMove todos (i : Int) (j : Int)).length := by omega
  have hi2 : i < (arrayMove todos (i : Int) (j : Int)).length := by omega
  have hmj : (arrayMove todos (i : Int) (j : Int))[j] = todos[i] := by
    have h1 := arrayMove_getElem_target todos i j hilt hjlt
    rw [List.getElem?_eq_getElem hj2] at h1
    exact Option.some.inj h1
  have htz : (arrayMove todos (i : Int) (j : Int))[i] = tz := by
    rw [List.getElem?_eq_getElem hi2] at hz
    exact Option.some.inj hz
  have hndm : ((arrayMove todos (i : Int) (j : Int)).map Todo.id).Nodup :=
    ((arrayMove_perm todos i j hilt hjlt).map Todo.id).symm.nodup hnd
  have hXZ : X ≠ Z := by
    have hne := nodup_map_id_getElem_ne
      (arrayMove todos (i : Int) (j : Int)) hndm j i hj2 hi2
      (fun h => hij h.symm)
    rw [hmj, htz, hpi2, hzid] at hne
    exact hne
  have hfX : (arrayMove todos (i : Int) (j : Int)).findIdx?
      (fun t => t.id = X) = some j := by
    apply findIdx?_eq_some_of _ _ j hj2
    · rw [List.get_eq_getElem, hmj]
      exact decide_eq_true hpi2
    · intro k hk hkj
      have h1 := arrayMove_getElem_early todos i j k hilt hjlt hkj
      have hklen : k < ((todos.eraseIdx i).take j).length := by
        rw [eraseIdx_length_take todos i hilt j hjlt]
        exact hkj
      rw [List.getElem?_eq_getElem hk, List.getElem?_eq_getElem hklen] at h1
      have h2 := Option.some.inj h1
      have hmem : (arrayMove todos (i : Int) (j : Int))[k]
          ∈ todos.eraseIdx i := by
        rw [h2]
        exact List.mem_of_mem_take (List.getElem_mem hklen)
      have hne2 := id_not_in_eraseIdx todos i hilt hnd _ hmem
      rw [hpi2] at hne2
      rw [List.get_eq_getElem]
      exact decide_eq_false hne2
  have hfZ : (arrayMove todos (i : Int) (j : Int)).findIdx?
      (fun t => t.id = Z) = some i := by
    apply findIdx?_eq_some_of _ _ i hi2
    · rw [List.get_eq_getElem, htz]
      exact decide_eq_true hzid
    · intro k hk hki
      have hne3 := nodup_map_id_getElem_ne
        (arrayMove todos (i : Int) (j : Int)) hndm k i hk hi2
        (Nat.ne_of_lt hki)
      rw [htz, hzid] at hne3
      rw [List.get_eq_getElem]
      exact decide_eq_false hne3
  have hfs2 : (handleDragEnd (arrayMove todos (i : Int) (j : Int)) X
      (some Z)).finalStore
      = arrayMove (arrayMove todos (i : Int) (j : Int)) (j : Int)
          (i : Int) := by
    simp [handleDragEnd, hXZ, findIndexJS, hfX, hfZ]
  rw [hfs2]
  exact arrayMove_round_trip todos i j hilt hjlt

/-- Witness for C9 on `[a, b, c]`: move `"a"` to the position of `"c"`
(giving `[b, c, a]`), then move `"a"` to the position of `"b"` (its
original neighbor, now at index 0): the store is `[a, b, c]` again. -/
theorem C9_reorder_round_trip_witness :
    (handleDragEnd
        (handleDragEnd
          [{ id := "a", body := "a", completed := false },
           { id := "b", body := "b", completed := false },
           { id := "c", body := "c", completed := false }] "a"
          (some "c")).finalStore "a" (some "b")).finalStore
      = [{ id := "a", body := "a", completed := false },
         { id := "b", body := "b", completed := false },
         { id := "c", body := "c", completed := false }] :=
  C9_reorder_round_trip
    [{ id := "a", body := "a", completed := false },
     { id := "b", body := "b", completed := false },
     { id := "c", body := "c", completed := false }] "a" "c" "b" 0 2
    { id := "b", body := "b", completed := false }
    (by decide) (by decide) (by decide) (by decide) (by decide) (by decide)

/-- **C4.** Completion is monotone.  In a store with unique ids (the spec's
store invariant; `created` carries a fresh server-assigned id): (1)
`requestToggle` on an already-completed task (the caller passes
`completed = true`) is rejected by the `if (completed) return` guard before
any store mutation or gateway call; and (2)–(6) no engine operation —
toggle, edit, delete, create, reorder — ever leaves the store showing a
task id whose `completed` field went from `true` back to `false`. -/
theorem C4_completed_monotone (todos : List Todo) (id body aid : String)
    (over : Option String) (c ok : Bool) (created : Todo)
    (hnd : (todos.map Todo.id).Nodup)
    (hfresh : created.id ∉ todos.map Todo.id) :
    toggleTodo todos id true ok = noopOutcome todos ∧
    ¬ demotesCompleted todos (toggleTodo todos id c ok).finalStore ∧
    ¬ demotesCompleted todos (editTodo todos id body ok).finalStore ∧
    ¬ demotesCompleted todos (deleteTodo todos id ok).finalStore ∧
    ¬ demotesCompleted todos (createTodo todos body ok created).finalStore ∧
    ¬ demotesCompleted todos (handleDragEnd todos aid over).finalStore := by
  have hself : ¬ demotesCompleted todos todos :=
    not_demotes_of_subset todos todos hnd (fun u hu => hu)
  refine ⟨by simp [toggleTodo], ?_, ?_, ?_, ?_, ?_⟩
  · cases c with
    | true => simpa [toggleTodo, noopOutcome] using hself
    | false =>
      cases ok with
      | false => simpa [toggleTodo] using hself
      | true =>
        have hred : (toggleTodo todos id false true).finalStore
            = todos.map (fun t =>
                if t.id = id then { t with completed := true } else t) := by
          simp [toggleTodo]
        rw [hred]
        refine not_demotes_map_promote todos _ hnd ?_ ?_
        · intro t
          by_cases h : t.id = id <;> simp [h]
        · intro t hc
          by_cases h : t.id = id <;> simp [h, hc]
  · cases ok with
    | false => simpa [editTodo] using hself
    | true =>
      have hred : (editTodo todos id body true).finalStore
          = todos.map (fun t =>
              if t.id = id then { t with body := body } else t) := by
        simp [editTodo]
      rw [hred]
      refine not_demotes_map_promote todos _ hnd ?_ ?_
      · intro t
        by_cases h : t.id = id <;> simp [h]
      · intro t hc
        by_cases h : t.id = id <;> simp [h, hc]
  · cases ok with
    | false => simpa [deleteTodo] using hself
    | true =>
      have hred : (deleteTodo todos id true).finalStore
          = todos.filter (fun t => t.id ≠ id) := by
        simp [deleteTodo]
      rw [hred]
      exact not_demotes_of_subset todos _ hnd
        (fun u hu => (List.mem_filter.1 hu).1)
  · by_cases hb : jsTrim body = ""
    · simpa [createTodo, hb, noopOutcome] using hself
    · cases ok with
      | false => simpa [createTodo, hb] using hself
      | true =>
        have hred : (createTodo todos body true created).finalStore
            = created :: todos := by
          simp [createTodo, hb]
        rw [hred]
        exact not_demotes_cons_fresh todos created hnd hfresh
  · cases over with
    | none => simpa [handleDragEnd, noopOutcome] using hself
    | some overId =>
      by_cases hg : aid ≠ overId
      · have hred : (handleDragEnd todos aid (some overId)).finalStore
            = arrayMove todos (findIndexJS (fun t => t.id = aid) todos)
                (findIndexJS (fun t => t.id = overId) todos) := by
          simp [handleDragEnd, hg]
        rw [hred]
        exact not_demotes_of_subset todos _ hnd
          (fun u hu => mem_of_mem_arrayMove todos _ _ u hu)
      · simpa [handleDragEnd, hg, noopOutcome] using hself

/-- Witness for C4: in a one-task completed store, toggling with the
completed flag set is a full no-op, and a successful toggle applied anyway
never demotes the completed task. -/
theorem C4_completed_monotone_witness :
    toggleTodo [{ id := "a", body := "a", completed := true }] "a" true true
      = noopOutcome [{ id := "a", body := "a", completed := true }] ∧
    ¬ demotesCompleted [{ id := "a", body := "a", completed := true }]
        (toggleTodo [{ id := "a", body := "a", completed := true }] "a"
          false true).finalStore :=
  ⟨(C4_completed_monotone [{ id := "a", body := "a", completed := true }]
      "a" "x" "a" (some "a") false true
      { id := "b", body := "b", completed := false } (by decide)
      (by decide)).1,
   (C4_completed_monotone [{ id := "a", body := "a", completed := true }]
      "a" "x" "a" (some "a") false true
      { id := "b", body := "b", completed := false } (by decide)
      (by decide)).2.1⟩

/-- **C6.** Frame property: a mutation targeting id `A` never touches any
entry with a different id and keeps the other entries' relative order —
edit, toggle and delete leave `filter (id ≠ A)` of the store unchanged —
and two mutations on distinct ids `A ≠ B` resolve independently: resolving
a delete of `A` and an edit of `B` in either order yields the same store,
and each one's outcome (the entries with its id) is exactly what it would
have been alone, whatever the success/failure of the other. -/
theorem C6_mutation_frame (todos : List Todo) (A B newBody : String)
    (okA okB : Bool) (hAB : A ≠ B) :
    (editTodo todos A newBody okA).finalStore.filter (fun t => t.id ≠ A)
      = todos.filter (fun t => t.id ≠ A) ∧
    (toggleTodo todos A false okA).finalStore.filter (fun t => t.id ≠ A)
      = todos.filter (fun t => t.id ≠ A) ∧
    (deleteTodo todos A okA).finalStore.filter (fun t => t.id ≠ A)
      = todos.filter (fun t => t.id ≠ A) ∧
    (editTodo (deleteTodo todos A okA).finalStore B newBody okB).finalStore
      = (deleteTodo (editTodo todos B newBody okB).finalStore A
          okA).finalStore ∧
    (editTodo (deleteTodo todos A okA).finalStore B newBody
        okB).finalStore.filter (fun t => t.id = B)
      = (editTodo todos B newBody okB).finalStore.filter
          (fun t => t.id = B) ∧
    (editTodo (deleteTodo todos A okA).finalStore B newBody
        okB).finalStore.filter (fun t => t.id = A)
      = (deleteTodo todos A okA).finalStore.filter (fun t => t.id = A) :=
  ⟨edit_frame_ne todos A newBody okA, toggle_frame_ne todos A okA,
   delete_frame_ne todos A okA, edit_delete_comm todos A B newBody okA okB,
   edit_after_delete_keeps_B todos A B newBody okA okB hAB,
   edit_after_delete_keeps_A todos A B newBody okA okB hAB⟩

/-- Witness for C6: deleting `"a"` (success) and editing `"b"` (failure)
commute, and the `"b"` entries end up exactly as the (failed) edit alone
would have left them — the delete's success did not disturb them. -/
theorem C6_mutation_frame_witness :
    (editTodo (deleteTodo
        [{ id := "a", body := "a", completed := false },
         { id := "b", body := "b", completed := false }] "a"
        true).finalStore "b" "new" false).finalStore
      = (deleteTodo (editTodo
          [{ id := "a", body := "a", completed := false },
           { id := "b", body := "b", completed := false }] "b" "new"
          false).finalStore "a" true).finalStore ∧
    (editTodo (deleteTodo
        [{ id := "a", body := "a", completed := false },
         { id := "b", body := "b", completed := false }] "a"
        true).finalStore "b" "new" false).finalStore.filter
        (fun t => t.id = "b")
      = (editTodo
          [{ id := "a", body := "a", completed := false },
           { id := "b", body := "b", completed := false }] "b" "new"
          false).finalStore.filter (fun t => t.id = "b") :=
  ⟨(C6_mutation_frame
      [{ id := "a", body := "a", completed := false },
       { id := "b", body := "b", completed := false }] "a" "b" "new" true
      false (by decide)).2.2.2.1,
   (C6_mutation_frame
      [{ id := "a", body := "a", completed := false },
       { id := "b", body := "b", completed := false }] "a" "b" "new" true
      false (by decide)).2.2.2.2.1⟩

end TodoGopher
